import Mathlib

/-!
# Crime Pattern Analysis dashboard — aggregation engine, shallow embedding

This file embeds the aggregation layer of the crime-dashboard repository
(`dashboard/utils.py` together with the aggregation snippets inlined in
`dashboard/app.py`) as executable Lean definitions, and proves (or refutes)
the specification's claims about it.

Modelling conventions:
* a pandas `DataFrame` row becomes a `Record`; the optional `day_name`
  column that `app.py` writes onto the filtered frame in tab 2 is an
  `Option String` field, `none` as long as the column has not been written;
* where a function inspects `df.columns` (`get_cluster_hotspots`,
  `get_arrest_statistics`), the frame is a `Frame`: a column-name list
  paired with the rows;
* timestamps are integers counted in days, so `datetime.now() - timedelta(days=d)`
  becomes `now - d`; `now` is an explicit parameter of the time filter;
* floats are modelled by `ℚ`; `Series.round(2)` becomes `roundTwo`
  (round to nearest, scaled by 100);
* `groupby(k)` sorts its keys ascending, as pandas does, and
  `sort_values(c, ascending=False)` is a sort by descending `c`.
-/

namespace CrimeDash

/-- One row of the incident table (`chicago_crime_with_clusters.csv` after
`load_crime_data`): date, coordinates, category, arrest flag, hour of day and
the cluster label, `-1` being the noise sentinel.  `day_name` models the
column of the same name that `app.py` writes in tab 2; it is `none` until
that write happens. -/
structure Record where
  date : Int
  latitude : ℚ
  longitude : ℚ
  primary_type : String
  arrest : Bool
  hour : Int
  st_cluster : Int
  day_name : Option String := none
deriving DecidableEq

/-- A dataframe together with its column list, for the functions that test
`c in df.columns` before touching column `c`. -/
structure Frame where
  cols : List String
  rows : List Record
deriving DecidableEq

/-- `utils.apply_time_filter`: `df[df["date"] >= datetime.now() - timedelta(days=days)]`,
with `now` made explicit. -/
def apply_time_filter (now days : Int) (df : List Record) : List Record :=
  df.filter (fun r => now - days ≤ r.date)

/-- Number of rows carrying the noise sentinel `st_cluster = -1`. -/
def noiseCount (df : List Record) : Nat :=
  (df.filter (fun r => r.st_cluster = -1)).length

/-- `utils.get_overview_metrics`: `(total, hotspots, noise_pct)` where
`noise_pct = (df["st_cluster"] == -1).mean() * 100` guarded by `total > 0`
and `hotspots = df[df["st_cluster"] != -1]["st_cluster"].nunique()`. -/
def get_overview_metrics (df : List Record) : Nat × Nat × ℚ :=
  let total := df.length
  let noise_pct : ℚ :=
    if 0 < total then (noiseCount df : ℚ) / (total : ℚ) * 100 else 0
  let hotspots :=
    ((df.filter (fun r => r.st_cluster ≠ -1)).map (fun r => r.st_cluster)).dedup.length
  (total, hotspots, noise_pct)

/-- `utils.filter_by_cluster`: the sentinel `"All"` is `none`, a concrete
cluster id is `some c`. -/
def filter_by_cluster (cluster : Option Int) (df : List Record) : List Record :=
  match cluster with
  | none => df
  | some c => df.filter (fun r => r.st_cluster = c)

/-- Keys of a pandas `groupby` over an integer column: the distinct values,
ascending. -/
def groupKeys (l : List Int) : List Int :=
  l.dedup.insertionSort (fun a b => a ≤ b)

/-- `utils.hourly_distribution`: `df.groupby("hour").size().reset_index(name="count")`. -/
def hourly_distribution (df : List Record) : List (Int × Nat) :=
  (groupKeys (df.map (fun r => r.hour))).map
    (fun h => (h, (df.filter (fun r => r.hour = h)).length))

/-- `utils.get_hour_crime_distribution`: `hourly_distribution` plus the
`hour_label` column `str(hour) + ":00"`. -/
def get_hour_crime_distribution (df : List Record) : List (Int × Nat × String) :=
  (hourly_distribution df).map (fun p => (p.1, p.2, toString p.1 ++ ":00"))

/-- Count of records of a given category (`primary_type`). -/
def catCount (df : List Record) (c : String) : Nat :=
  (df.filter (fun r => r.primary_type = c)).length

/-- Descending-by-count order on `(category, count)` pairs. -/
def cntDesc (a b : String × Nat) : Prop := b.2 ≤ a.2

instance : DecidableRel cntDesc := fun a b => Nat.decLe b.2 a.2

instance : IsTotal (String × Nat) cntDesc :=
  ⟨fun a b => Nat.le_total b.2 a.2⟩

instance : IsTrans (String × Nat) cntDesc :=
  ⟨fun _ _ _ h1 h2 => le_trans h2 h1⟩

/-- `df["primary_type"].value_counts()`: every distinct category with its
frequency, ordered by descending count (ties in first-encountered order). -/
def value_counts (df : List Record) : List (String × Nat) :=
  ((df.map (fun r => r.primary_type)).dedup.map
    (fun c => (c, catCount df c))).insertionSort cntDesc

/-- `utils.top_crime_types`: `value_counts().head(top_n)`. -/
def top_crime_types (df : List Record) (top_n : Nat) : List (String × Nat) :=
  (value_counts df).take top_n

/-- Number of rows whose arrest flag is set. -/
def arrestCount (df : List Record) : Nat :=
  (df.filter (fun r => r.arrest)).length

/-- `utils.arrest_rate`: `0` on an empty frame, else `df["arrest"].mean() * 100`. -/
def arrest_rate (df : List Record) : ℚ :=
  if df.length = 0 then 0 else (arrestCount df : ℚ) / (df.length : ℚ) * 100

/-- `Series.round(2)` on an exact rational. -/
def roundTwo (q : ℚ) : ℚ := (round (q * 100) : ℚ) / 100

/-- Arithmetic mean of a list of rationals (pandas `mean` on a non-empty group). -/
def qMean (l : List ℚ) : ℚ := l.sum / (l.length : ℚ)

/-- Minimum of a list of integers, leftmost-first (pandas `min` on a group). -/
def listMin : List Int → Int
  | [] => 0
  | a :: t => t.foldl min a

/-- Maximum of a list of integers (pandas `max` on a group). -/
def listMax : List Int → Int
  | [] => 0
  | a :: t => t.foldl max a

/-- `value_counts().index[0]` of a category list: the first-encountered value
of maximal frequency, `"—"` when the list is empty. -/
def modeCat (l : List String) : String :=
  ((l.dedup.map (fun c => (c, (l.filter (fun x => x = c)).length))).foldl
    (fun best p => if best.2 < p.2 then p else best) ("—", 0)).1

/-- One output row of `utils.get_cluster_hotspots`. -/
structure HotspotRow where
  st_cluster : Int
  latitude : ℚ
  longitude : ℚ
  count : Nat
  arrests : Nat
  date_min : Int
  date_max : Int
  arrest_rate : ℚ
  top_crime_type : String
deriving DecidableEq

/-- Descending-by-count order on hotspot rows
(`sort_values("count", ascending=False)`). -/
def hotDesc (a b : HotspotRow) : Prop := b.count ≤ a.count

instance : DecidableRel hotDesc := fun a b => Nat.decLe b.count a.count

instance : IsTotal HotspotRow hotDesc :=
  ⟨fun a b => Nat.le_total b.count a.count⟩

instance : IsTrans HotspotRow hotDesc :=
  ⟨fun _ _ _ h1 h2 => le_trans h2 h1⟩

/-- The aggregate row built for one cluster group in `get_cluster_hotspots`:
mean coordinates, size, arrest count and rate (rounded to 2 decimals),
date range and dominant category. -/
def mkHotspotRow (c : Int) (g : List Record) : HotspotRow :=
  { st_cluster := c
    latitude := qMean (g.map (fun r => r.latitude))
    longitude := qMean (g.map (fun r => r.longitude))
    count := g.length
    arrests := arrestCount g
    date_min := listMin (g.map (fun r => r.date))
    date_max := listMax (g.map (fun r => r.date))
    arrest_rate := roundTwo ((arrestCount g : ℚ) / (g.length : ℚ) * 100)
    top_crime_type := modeCat (g.map (fun r => r.primary_type)) }

/-- The `cluster_df = df[df["st_cluster"] != -1]` intermediate of
`get_cluster_hotspots`: the non-noise rows. -/
def clusterDf (f : Frame) : List Record :=
  f.rows.filter (fun r => r.st_cluster ≠ -1)

/-- `utils.get_cluster_hotspots`: empty when the `st_cluster` column is
missing or no non-noise row exists; otherwise one aggregate row per distinct
non-noise cluster id, sorted by descending count. -/
def get_cluster_hotspots (f : Frame) : List HotspotRow :=
  if "st_cluster" ∈ f.cols then
    if (clusterDf f).isEmpty then []
    else
      ((groupKeys ((clusterDf f).map (fun r => r.st_cluster))).map
        (fun c => mkHotspotRow c ((clusterDf f).filter (fun r => r.st_cluster = c)))).insertionSort
        hotDesc
  else []

/-- `utils.get_arrest_statistics`: `(total_arrests, arrest_rate)`, the sum of
the arrest flags (0 when the column is absent) and the percentage guarded by
`len(df) > 0`. -/
def get_arrest_statistics (f : Frame) : Nat × ℚ :=
  let ta := if "arrest" ∈ f.cols then arrestCount f.rows else 0
  let pct : ℚ :=
    if 0 < f.rows.length then (ta : ℚ) / (f.rows.length : ℚ) * 100 else 0
  (ta, pct)

/-- `utils.get_daily_crime_trend`: `df.groupby(df["date"].dt.date).size()`,
one row per distinct calendar date, ascending. -/
def get_daily_crime_trend (df : List Record) : List (Int × Nat) :=
  (groupKeys (df.map (fun r => r.date))).map
    (fun d => (d, (df.filter (fun r => r.date = d)).length))

/-- The Monday→Sunday weekday ordering used by `get_day_week_distribution`
and the tab-2 heatmap. -/
def dayOrder : List String :=
  ["Monday", "Tuesday", "Wednesday", "Thursday", "Friday", "Saturday", "Sunday"]

/-- Weekday name of a date (dates counted in days, so the weekday is the
residue mod 7). -/
def dayName (d : Int) : String := dayOrder.getD (d % 7).toNat "Monday"

/-- Position of a weekday name in the Monday→Sunday order; names outside the
order sort last, as pandas `Categorical` sorts unknown categories. -/
def dayIdx (s : String) : Nat := dayOrder.indexOf s

/-- Monday→Sunday order on `(day_name, count)` pairs. -/
def dayLe (a b : String × Nat) : Prop := dayIdx a.1 ≤ dayIdx b.1

instance : DecidableRel dayLe := fun a b => Nat.decLe (dayIdx a.1) (dayIdx b.1)

instance : IsTotal (String × Nat) dayLe :=
  ⟨fun a b => Nat.le_total (dayIdx a.1) (dayIdx b.1)⟩

instance : IsTrans (String × Nat) dayLe :=
  ⟨fun _ _ _ h1 h2 => le_trans h1 h2⟩

/-- `utils.get_day_week_distribution`: group by the `day_name` column, then
order the rows Monday→Sunday via the `Categorical` sort. -/
def get_day_week_distribution (df : List Record) : List (String × Nat) :=
  (((df.map (fun r => r.day_name.getD "")).dedup).map
    (fun s => (s, (df.filter (fun r => r.day_name.getD "" = s)).length))).insertionSort
    dayLe

/-- The column write `df_filtered["day_name"] = df_filtered["date"].dt.day_name()`
performed by `app.py` in tab 2: every row of the frame gains the weekday
column. -/
def addDayName (df : List Record) : List Record :=
  df.map (fun r => { r with day_name := some (dayName r.date) })

/-- Tab 2's `heatmap_df`: `df_filtered.groupby(["day_name", "hour"]).size()`,
one row per (weekday, hour) pair actually observed. -/
def heatmap_df (df : List Record) : List ((String × Int) × Nat) :=
  ((df.map (fun r => (r.day_name.getD "", r.hour))).dedup).map
    (fun k => (k, (df.filter (fun r => (r.day_name.getD "", r.hour) = k)).length))

/-- The whole tab-2 heatmap preparation as a state transformer on the filtered
frame: first component is the frame object *after* the statement
`df_filtered["day_name"] = ...` has executed (the in-place column write),
second component the derived joint distribution. -/
def heatmap_prep (df : List Record) : List Record × List ((String × Int) × Nat) :=
  let df2 := addDayName df
  (df2, heatmap_df df2)

/-- `app.py` tab 3, crime-type statistics table: each returned ranking row is
extended with `Percentage = count / sum(returned counts) * 100`, rounded to
two decimals (`"0%"`, i.e. `0`, when the summed count is zero). -/
def crime_stats (df : List Record) (top_n : Nat) : List (String × Nat × ℚ) :=
  let rows := top_crime_types df top_n
  let s : Nat := (rows.map (fun p => p.2)).sum
  rows.map (fun p => (p.1, p.2, if 0 < s then roundTwo ((p.2 : ℚ) / (s : ℚ) * 100) else 0))

/-! ### Concrete sample data, used by witnesses and counterexamples -/

/-- A sample incident in hotspot 1. -/
def recA : Record :=
  { date := 0, latitude := 417/10, longitude := -877/10, primary_type := "THEFT",
    arrest := false, hour := 5, st_cluster := 1 }

/-- A second incident in hotspot 1, with an arrest. -/
def recB : Record :=
  { date := 1, latitude := 418/10, longitude := -876/10, primary_type := "BATTERY",
    arrest := true, hour := 12, st_cluster := 1 }

/-- A noise incident (`st_cluster = -1`). -/
def recC : Record :=
  { date := 2, latitude := 419/10, longitude := -875/10, primary_type := "THEFT",
    arrest := false, hour := 23, st_cluster := -1 }

/-- An incident in hotspot 2. -/
def recD : Record :=
  { date := 3, latitude := 420/10, longitude := -874/10, primary_type := "ASSAULT",
    arrest := true, hour := 1, st_cluster := 2 }

/-- The specification's worked example: two hotspot-1 records and one noise
record. -/
def sampleDf : List Record := [recA, recB, recC]

/-- The standard column list produced by the loading collaborator. -/
def stdCols : List String :=
  ["latitude", "longitude", "primary_type", "arrest", "hour", "st_cluster", "date"]

/-- A frame with two hotspots of different sizes plus a noise record. -/
def sampleFrame : Frame := { cols := stdCols, rows := [recA, recB, recD, recC] }

/-- A frame whose `st_cluster` column is missing. -/
def noClusterFrame : Frame := { cols := ["date", "hour"], rows := [recA, recB] }

/-- An empty frame. -/
def emptyFrame : Frame := { cols := stdCols, rows := [] }

/-- A single-category constructor for the ranking counterexample. -/
def mkCat (c : String) (h : Int) : Record :=
  { date := 0, latitude := 0, longitude := 0, primary_type := c,
    arrest := false, hour := h, st_cluster := 1 }

/-- Seven records of seven distinct categories: each category holds exactly
1/7 of the data. -/
def sevenCats : List Record :=
  [mkCat "A" 0, mkCat "B" 1, mkCat "C" 2, mkCat "D" 3,
   mkCat "E" 4, mkCat "F" 5, mkCat "G" 6]

/-! ### Claims -/

/-- C10: on a frame that lacks the `st_cluster` column, `get_cluster_hotspots`
returns the empty table instead of raising. -/
theorem C10_missing_cluster_column (f : Frame) (h : "st_cluster" ∉ f.cols) :
    get_cluster_hotspots f = [] := by
  rw [get_cluster_hotspots, if_neg h]

/-- C10 witness: a concrete frame without the `st_cluster` column yields the
empty hotspot table. -/
theorem C10_missing_cluster_column_witness :
    get_cluster_hotspots noClusterFrame = [] :=
  C10_missing_cluster_column noClusterFrame (by decide)

/-- C2: every aggregation, with the wall clock `now` of the time filter made
an explicit parameter, is a pure function of its inputs: two runs on the same
frozen table with the same parameters return identical results. -/
theorem C2_two_run_determinism (df1 df2 : List Record) (f1 f2 : Frame)
    (now days : Int) (c : Option Int) (n : Nat)
    (hdf : df1 = df2) (hf : f1 = f2) :
    apply_time_filter now days df1 = apply_time_filter now days df2 ∧
    filter_by_cluster c df1 = filter_by_cluster c df2 ∧
    get_overview_metrics df1 = get_overview_metrics df2 ∧
    get_arrest_statistics f1 = get_arrest_statistics f2 ∧
    get_cluster_hotspots f1 = get_cluster_hotspots f2 ∧
    hourly_distribution df1 = hourly_distribution df2 ∧
    get_hour_crime_distribution df1 = get_hour_crime_distribution df2 ∧
    get_day_week_distribution df1 = get_day_week_distribution df2 ∧
    get_daily_crime_trend df1 = get_daily_crime_trend df2 ∧
    top_crime_types df1 n = top_crime_types df2 n ∧
    arrest_rate df1 = arrest_rate df2 := by
  subst hdf; subst hf
  exact ⟨rfl, rfl, rfl, rfl, rfl, rfl, rfl, rfl, rfl, rfl, rfl⟩

/-- C2 witness: two runs of the time filter on the sample table coincide. -/
theorem C2_two_run_determinism_witness :
    apply_time_filter 10 7 sampleDf = apply_time_filter 10 7 sampleDf :=
  (C2_two_run_determinism sampleDf sampleDf sampleFrame sampleFrame
    10 7 none 5 rfl rfl).1

/-- C7: for a positive window `days`, the time filter returns exactly the
records of the input whose timestamp is at least `now - days` (future
timestamps included, since only a lower bound is tested), and the empty list
— not an error — when no record qualifies. -/
theorem C7_time_filter_window (now days : Int) (df : List Record)
    (hW : 0 < days) :
    (∀ r ∈ apply_time_filter now days df, now - days ≤ r.date ∧ r ∈ df) ∧
    (∀ r ∈ df, now - days ≤ r.date → r ∈ apply_time_filter now days df) ∧
    ((∀ r ∈ df, r.date < now - days) → apply_time_filter now days df = []) := by
  refine ⟨?_, ?_, ?_⟩
  · intro r hr
    rw [apply_time_filter, List.mem_filter] at hr
    exact ⟨by simpa using hr.2, hr.1⟩
  · intro r hr hd
    rw [apply_time_filter, List.mem_filter]
    exact ⟨hr, by simpa using hd⟩
  · intro h
    rw [apply_time_filter, List.filter_eq_nil_iff]
    intro r hr
    simpa using not_le.mpr (h r hr)

/-- C7 witness: with `now = 2` and a 7-day window, the sample record of
date 0 survives the filter (cutoff `-5`). -/
theorem C7_time_filter_window_witness :
    recA ∈ apply_time_filter 2 7 [recA] :=
  (C7_time_filter_window 2 7 [recA] (by decide)).2.1 recA
    (List.mem_cons_self recA []) (by decide)

/-- C6: every rate computation special-cases an empty table to 0 instead of
dividing by zero, and on a schema-conforming frame the arrest statistics are
the integer count of set arrest flags and, for non-empty input, the arrest
count over the row count times 100. -/
theorem C6_zero_denominators (f : Frame) (df : List Record) :
    (df.length = 0 → arrest_rate df = 0) ∧
    (f.rows.length = 0 → (get_arrest_statistics f).2 = 0) ∧
    (df.length = 0 → (get_overview_metrics df).2.2 = 0) ∧
    ("arrest" ∈ f.cols → (get_arrest_statistics f).1 = arrestCount f.rows) ∧
    ("arrest" ∈ f.cols → 0 < f.rows.length →
      (get_arrest_statistics f).2
        = (arrestCount f.rows : ℚ) / (f.rows.length : ℚ) * 100) := by
  refine ⟨?_, ?_, ?_, ?_, ?_⟩
  · intro h
    rw [arrest_rate, if_pos h]
  · intro h
    have : ¬ 0 < f.rows.length := by omega
    simp only [get_arrest_statistics, if_neg this]
  · intro h
    have : ¬ 0 < df.length := by omega
    simp only [get_overview_metrics, if_neg this]
  · intro h
    simp only [get_arrest_statistics, if_pos h]
  · intro h hl
    simp only [get_arrest_statistics, if_pos h, if_pos hl]

/-- C6 witness: on the empty frame both rates are 0; on the sample frame the
arrest statistics count the two set flags among four records. -/
theorem C6_zero_denominators_witness :
    arrest_rate ([] : List Record) = 0 ∧
    (get_arrest_statistics emptyFrame).2 = 0 ∧
    (get_arrest_statistics sampleFrame).1 = arrestCount sampleFrame.rows ∧
    (get_arrest_statistics sampleFrame).2
      = (arrestCount sampleFrame.rows : ℚ) / (sampleFrame.rows.length : ℚ) * 100 :=
  ⟨(C6_zero_denominators emptyFrame []).1 rfl,
   (C6_zero_denominators emptyFrame []).2.1 rfl,
   (C6_zero_denominators sampleFrame []).2.2.2.1 (by decide),
   (C6_zero_denominators sampleFrame []).2.2.2.2 (by decide) (by decide)⟩

/-- The distinct non-noise cluster ids of a record list form the erasure of
`-1` from the set of all cluster ids. -/
lemma stCluster_toFinset (df : List Record) :
    ((df.filter (fun r => r.st_cluster ≠ -1)).map (fun r => r.st_cluster)).toFinset
      = (df.map (fun r => r.st_cluster)).toFinset.erase (-1) := by
  ext a
  simp only [List.mem_toFinset, List.mem_map, List.mem_filter, Finset.mem_erase,
    decide_eq_true_eq]
  constructor
  · rintro ⟨r, ⟨hr, hne⟩, rfl⟩
    exact ⟨hne, r, hr, rfl⟩
  · rintro ⟨ha, r, hr, rfl⟩
    exact ⟨r, ⟨hr, ha⟩, rfl⟩

/-- C5: `get_overview_metrics` returns the row count, the number of distinct
non-noise cluster ids, and a noise percentage that is the exact noise share
(zero on an empty table) and always lies in `[0, 100]`. -/
theorem C5_overview_metrics (df : List Record) :
    (get_overview_metrics df).1 = df.length ∧
    (get_overview_metrics df).2.1
      = ((df.map (fun r => r.st_cluster)).toFinset.erase (-1)).card ∧
    (0 < df.length →
      (get_overview_metrics df).2.2 = (noiseCount df : ℚ) / (df.length : ℚ) * 100) ∧
    (df.length = 0 → (get_overview_metrics df).2.2 = 0) ∧
    0 ≤ (get_overview_metrics df).2.2 ∧ (get_overview_metrics df).2.2 ≤ 100 := by
  have e2 : (get_overview_metrics df).2.2
      = if 0 < df.length then (noiseCount df : ℚ) / (df.length : ℚ) * 100 else 0 := rfl
  have hbounds : 0 ≤ (get_overview_metrics df).2.2 ∧ (get_overview_metrics df).2.2 ≤ 100 := by
    rw [e2]
    by_cases h : 0 < df.length
    · rw [if_pos h]
      have ht : (0:ℚ) < (df.length : ℚ) := by exact_mod_cast h
      have hn : (noiseCount df : ℚ) ≤ (df.length : ℚ) := by
        exact_mod_cast List.length_filter_le _ df
      constructor
      · positivity
      · have hdiv : (noiseCount df : ℚ) / (df.length : ℚ) ≤ 1 :=
          (div_le_one ht).mpr hn
        calc (noiseCount df : ℚ) / (df.length : ℚ) * 100
            ≤ 1 * 100 := by
              exact mul_le_mul_of_nonneg_right hdiv (by norm_num)
          _ = 100 := by norm_num
    · rw [if_neg h]
      norm_num
  refine ⟨rfl, ?_, ?_, ?_, hbounds⟩
  · show ((df.filter (fun r => r.st_cluster ≠ -1)).map (fun r => r.st_cluster)).dedup.length = _
    rw [← stCluster_toFinset, List.card_toFinset]
  · intro h
    rw [e2, if_pos h]
  · intro h
    rw [e2, if_neg (by omega)]

/-- C5 witness: on the specification's 3-record example (two hotspot records,
one noise record) the noise percentage equals `1 / 3 * 100`. -/
theorem C5_overview_metrics_witness :
    (get_overview_metrics sampleDf).2.2
      = (noiseCount sampleDf : ℚ) / (sampleDf.length : ℚ) * 100 :=
  (C5_overview_metrics sampleDf).2.2.1 (by decide)

/-- The hotspot summary is sorted by descending count in every branch. -/
lemma get_cluster_hotspots_sorted (f : Frame) :
    List.Sorted hotDesc (get_cluster_hotspots f) := by
  rw [get_cluster_hotspots]
  by_cases h1 : "st_cluster" ∈ f.cols
  · rw [if_pos h1]
    by_cases h2 : (clusterDf f).isEmpty
    · rw [if_pos h2]
      exact List.sorted_nil
    · rw [if_neg h2]
      exact List.sorted_insertionSort hotDesc _
  · rw [if_neg h1]
    exact List.sorted_nil

/-- C4: adjacent rows of the hotspot summary satisfy
`result[i+1].count ≤ result[i].count`: the output is sorted descending by
count. -/
theorem C4_hotspots_sorted_desc (f : Frame) (i : Nat)
    (h : i + 1 < (get_cluster_hotspots f).length) :
    ((get_cluster_hotspots f).get ⟨i + 1, h⟩).count
      ≤ ((get_cluster_hotspots f).get ⟨i, Nat.lt_of_succ_lt h⟩).count :=
  (get_cluster_hotspots_sorted f).rel_get_of_lt (by simp [Fin.lt_def])

/-- C4 witness: on the sample frame (hotspot 1 of size 2, hotspot 2 of
size 1) the second returned row's count is at most the first's. -/
theorem C4_hotspots_sorted_desc_witness :
    ((get_cluster_hotspots sampleFrame).get ⟨1, by decide⟩).count
      ≤ ((get_cluster_hotspots sampleFrame).get ⟨0, by decide⟩).count :=
  C4_hotspots_sorted_desc sampleFrame 0 (by decide)

/-- The size of a group equals the multiplicity of its key in the key
column. -/
lemma length_filter_eq_count (l : List Record) (key : Record → Int) (c : Int) :
    (l.filter (fun r => key r = c)).length = (l.map key).count c := by
  induction l with
  | nil => rfl
  | cons a t ih =>
    by_cases h : key a = c
    · simp [List.filter_cons, List.count_cons, h, ih]
    · simp [List.filter_cons, List.count_cons, h, ih]

/-- A group-by partitions the rows: the group sizes over the distinct keys sum
to the number of rows. -/
lemma sum_group_sizes (l : List Record) (key : Record → Int) :
    ((groupKeys (l.map key)).map
      (fun c => (l.filter (fun r => key r = c)).length)).sum = l.length := by
  have hperm : List.Perm (groupKeys (l.map key)) (l.map key).dedup :=
    List.perm_insertionSort _ _
  rw [(hperm.map (fun c => (l.filter (fun r => key r = c)).length)).sum_eq]
  have h2 : ((l.map key).dedup).map (fun c => (l.filter (fun r => key r = c)).length)
      = ((l.map key).dedup).map (fun c => (l.map key).count c) := by
    simp only [length_filter_eq_count]
  rw [h2, List.sum_map_count_dedup_eq_length, List.length_map]

/-- C9: the counts of the hotspot summary sum to at most the table's row
count, with equality exactly when the table has no noise record. -/
theorem C9_hotspot_counts_sum (f : Frame) (hc : "st_cluster" ∈ f.cols) :
    ((get_cluster_hotspots f).map (fun h => h.count)).sum ≤ f.rows.length ∧
    (((get_cluster_hotspots f).map (fun h => h.count)).sum = f.rows.length ↔
      ∀ r ∈ f.rows, r.st_cluster ≠ -1) := by
  have hsum : ((get_cluster_hotspots f).map (fun h => h.count)).sum
      = (clusterDf f).length := by
    rw [get_cluster_hotspots, if_pos hc]
    by_cases h2 : (clusterDf f).isEmpty
    · rw [if_pos h2]
      rw [List.isEmpty_iff] at h2
      simp [h2]
    · rw [if_neg h2]
      have hp : List.Perm
          (((groupKeys ((clusterDf f).map (fun r => r.st_cluster))).map
            (fun c => mkHotspotRow c
              ((clusterDf f).filter (fun r => r.st_cluster = c)))).insertionSort hotDesc)
          ((groupKeys ((clusterDf f).map (fun r => r.st_cluster))).map
            (fun c => mkHotspotRow c
              ((clusterDf f).filter (fun r => r.st_cluster = c)))) :=
        List.perm_insertionSort _ _
      rw [(hp.map (fun h => h.count)).sum_eq, List.map_map]
      exact sum_group_sizes (clusterDf f) (fun r => r.st_cluster)
  rw [hsum]
  constructor
  · exact List.length_filter_le _ f.rows
  · constructor
    · intro hlen r hr
      have heq : f.rows.filter (fun r => r.st_cluster ≠ -1) = f.rows :=
        List.Sublist.eq_of_length (List.filter_sublist _) hlen
      have := List.filter_eq_self.mp heq r hr
      simpa using this
    · intro hall
      have heq : f.rows.filter (fun r => r.st_cluster ≠ -1) = f.rows :=
        List.filter_eq_self.mpr (fun r hr => by simpa using hall r hr)
      rw [clusterDf, heq]

/-- C9 witness: on the sample frame (3 hotspot records, 1 noise record) the
hotspot counts sum to at most 4, and the sum differs from 4 because a noise
record exists. -/
theorem C9_hotspot_counts_sum_witness :
    ((get_cluster_hotspots sampleFrame).map (fun h => h.count)).sum
      ≤ sampleFrame.rows.length :=
  (C9_hotspot_counts_sum sampleFrame (by decide)).1

/-- Group-by keys are strictly sorted: distinct values in ascending order. -/
lemma groupKeys_sorted (l : List Int) :
    List.Sorted (fun a b : Int => a < b) (groupKeys l) := by
  have hs : List.Sorted (fun a b : Int => a ≤ b) (groupKeys l) :=
    List.sorted_insertionSort _ _
  have hn : (groupKeys l).Nodup :=
    ((List.perm_insertionSort _ _).nodup_iff).mpr (List.nodup_dedup l)
  exact hs.lt_of_le hn

/-- The hour keys of the by-hour distribution are exactly the group keys of
the hour column. -/
lemma hour_dist_keys (df : List Record) :
    (get_hour_crime_distribution df).map (fun p => p.1)
      = groupKeys (df.map (fun r => r.hour)) := by
  rw [get_hour_crime_distribution, hourly_distribution, List.map_map, List.map_map]
  exact List.map_id _

/-- C1 counterexample: on a one-record table the by-hour distribution has a
single row, not 24. -/
theorem C1_counterexample :
    (get_hour_crime_distribution [recA]).length ≠ 24 := by decide

/-- C1 amended: the by-hour distribution has one row per hour value present
in the data — correct positive count, ascending hour order, label
`"<hour>:00"` — and hours absent from the data are omitted (no zero-fill),
so the length is the number of distinct hours, at most 24 for in-range
hours, rather than always 24. -/
theorem C1_hour_distribution_rows (df : List Record) :
    (∀ p ∈ get_hour_crime_distribution df,
        (∃ r ∈ df, r.hour = p.1) ∧
        p.2.1 = (df.filter (fun r => r.hour = p.1)).length ∧ 0 < p.2.1 ∧
        p.2.2 = toString p.1 ++ ":00") ∧
    (∀ h : Int, (∃ r ∈ df, r.hour = h) →
        ∃ p ∈ get_hour_crime_distribution df, p.1 = h) ∧
    List.Sorted (fun a b : Int => a < b)
      ((get_hour_crime_distribution df).map (fun p => p.1)) ∧
    (get_hour_crime_distribution df).length
      = (df.map (fun r => r.hour)).dedup.length ∧
    ((∀ r ∈ df, 0 ≤ r.hour ∧ r.hour < 24) →
      (get_hour_crime_distribution df).length ≤ 24) := by
  have hlen : (get_hour_crime_distribution df).length
      = (df.map (fun r => r.hour)).dedup.length := by
    rw [get_hour_crime_distribution, List.length_map, hourly_distribution,
      List.length_map, groupKeys, (List.perm_insertionSort _ _).length_eq]
  refine ⟨?_, ?_, ?_, hlen, ?_⟩
  · intro p hp
    rw [get_hour_crime_distribution, List.mem_map] at hp
    obtain ⟨q, hq, rfl⟩ := hp
    rw [hourly_distribution, List.mem_map] at hq
    obtain ⟨h, hh, rfl⟩ := hq
    rw [groupKeys, List.mem_insertionSort, List.mem_dedup, List.mem_map] at hh
    obtain ⟨r, hr, rfl⟩ := hh
    refine ⟨⟨r, hr, rfl⟩, rfl, ?_, rfl⟩
    exact List.length_pos_of_mem (List.mem_filter.mpr ⟨hr, by simp⟩)
  · rintro h ⟨r, hr, hrh⟩
    rw [get_hour_crime_distribution]
    refine ⟨(h, (df.filter (fun r => r.hour = h)).length, toString h ++ ":00"),
      ?_, rfl⟩
    rw [List.mem_map]
    refine ⟨(h, (df.filter (fun r => r.hour = h)).length), ?_, rfl⟩
    rw [hourly_distribution, List.mem_map]
    refine ⟨h, ?_, rfl⟩
    rw [groupKeys, List.mem_insertionSort, List.mem_dedup, List.mem_map]
    exact ⟨r, hr, hrh⟩
  · rw [hour_dist_keys]
    exact groupKeys_sorted _
  · intro hall
    rw [hlen, ← List.card_toFinset]
    have hsub : (df.map (fun r => r.hour)).toFinset ⊆ Finset.Ico (0:ℤ) 24 := by
      intro a ha
      rw [List.mem_toFinset, List.mem_map] at ha
      obtain ⟨r, hr, rfl⟩ := ha
      rw [Finset.mem_Ico]
      exact hall r hr
    calc (df.map (fun r => r.hour)).toFinset.card
        ≤ (Finset.Ico (0:ℤ) 24).card := Finset.card_le_card hsub
      _ = 24 := by rw [Int.card_Ico]; rfl

/-- C1 witness: on the one-record sample table, hour 5 appears as a key of
the by-hour distribution. -/
theorem C1_hour_distribution_rows_witness :
    ∃ p ∈ get_hour_crime_distribution [recA], p.1 = 5 :=
  (C1_hour_distribution_rows [recA]).2.1 5 ⟨recA, List.mem_cons_self recA [], rfl⟩

/-- Erase the `day_name` column from a record. -/
def stripDayName (r : Record) : Record := { r with day_name := none }

/-- C3 counterexample: the tab-2 heatmap preparation does not leave the
filtered view unchanged — after it runs, the one-record view differs from its
original value (a `day_name` column has been written onto it). -/
theorem C3_counterexample : (heatmap_prep [recA]).1 ≠ [recA] := by
  intro h
  have h2 := congrArg (fun l => (l.headD recA).day_name) h
  simp [heatmap_prep, addDayName, recA] at h2

/-- C3 amended: the aggregations only derive new tables — the cluster filter
returns a subset of its input — but the heatmap preparation writes the
`day_name` column onto the filtered view it receives; it modifies nothing
else: row count and every pre-existing field of every row are preserved, and
each row's new `day_name` is the weekday of its own date. -/
theorem C3_heatmap_writes_only_day_name (df : List Record) (c : Option Int)
    (i : Nat) (hi : i < df.length) :
    (∀ r ∈ filter_by_cluster c df, r ∈ df) ∧
    (heatmap_prep df).1.length = df.length ∧
    (heatmap_prep df).1.map stripDayName = df.map stripDayName ∧
    ((heatmap_prep df).1.get ⟨i, by simpa [heatmap_prep, addDayName] using hi⟩
        = { df.get ⟨i, hi⟩ with day_name := some (dayName (df.get ⟨i, hi⟩).date) }) := by
  refine ⟨?_, ?_, ?_, ?_⟩
  · intro r hr
    cases c with
    | none => exact hr
    | some k =>
      rw [filter_by_cluster, List.mem_filter] at hr
      exact hr.1
  · rw [heatmap_prep]
    exact List.length_map df _
  · rw [heatmap_prep]
    show (df.map _).map stripDayName = df.map stripDayName
    rw [List.map_map]
    rfl
  · show (df.map _).get _ = _
    simp [List.get_eq_getElem, List.getElem_map]

/-- C3 witness: on the one-record sample view, erasing the written `day_name`
column recovers the original view. -/
theorem C3_heatmap_writes_only_day_name_witness :
    (heatmap_prep [recA]).1.map stripDayName = [recA].map stripDayName :=
  (C3_heatmap_writes_only_day_name [recA] none 0 (by decide)).2.2.1

/-- Rounding to two decimals moves a rational by at most `1/200`. -/
lemma roundTwo_abs_err (q : ℚ) : |roundTwo q - q| ≤ 1 / 200 := by
  have h := abs_sub_round (q * 100)
  rw [abs_sub_comm] at h
  have e : roundTwo q - q = ((round (q * 100) : ℚ) - q * 100) / 100 := by
    rw [roundTwo]; ring
  rw [e, abs_div, abs_of_pos (show (0:ℚ) < 100 by norm_num)]
  linarith

/-- Rounding each summand to two decimals moves a sum by at most `1/200`
per summand. -/
lemma sum_map_roundTwo_err (l : List ℚ) :
    |(l.map roundTwo).sum - l.sum| ≤ (l.length : ℚ) / 200 := by
  induction l with
  | nil => simp
  | cons a t ih =>
    rw [List.map_cons, List.sum_cons, List.sum_cons, List.length_cons]
    have h1 := roundTwo_abs_err a
    have e : roundTwo a + (t.map roundTwo).sum - (a + t.sum)
        = (roundTwo a - a) + ((t.map roundTwo).sum - t.sum) := by ring
    rw [e]
    have htri := abs_add (roundTwo a - a) ((t.map roundTwo).sum - t.sum)
    have hc : ((t.length + 1 : ℕ) : ℚ) = (t.length : ℚ) + 1 := by push_cast; ring
    rw [hc]
    linarith

/-- Summing `count / s * 100` over rows factors through the summed count. -/
lemma sum_div_mul (rows : List (String × Nat)) (s : ℚ) :
    (rows.map (fun p => (p.2 : ℚ) / s * 100)).sum
      = (((rows.map (fun p => p.2)).sum : ℕ) : ℚ) / s * 100 := by
  induction rows with
  | nil => simp
  | cons a t ih =>
    rw [List.map_cons, List.sum_cons, List.map_cons, List.sum_cons, ih]
    push_cast
    ring

/-- When the denominator is the sum of the returned counts, the exact
(pre-rounding) percentages sum to exactly 100. -/
lemma sum_exact_pcts (rows : List (String × Nat))
    (h0 : 0 < (rows.map (fun p => p.2)).sum) :
    (rows.map (fun p =>
      (p.2 : ℚ) / (((rows.map (fun p => p.2)).sum : ℕ) : ℚ) * 100)).sum = 100 := by
  rw [sum_div_mul]
  rw [div_self (by exact_mod_cast Nat.pos_iff_ne_zero.mp h0)]
  norm_num

/-- C8 counterexample: on seven records of seven distinct categories with
`top_n = 7`, each of the seven percentages rounds `100/7` up to `14.29`, so
they sum to `100.03` — more than `0.01` away from `100`. -/
theorem C8_counterexample :
    ¬ |((crime_stats sevenCats 7).map (fun q => q.2.2)).sum - 100| ≤ 1 / 100 := by
  have h1 : (crime_stats sevenCats 7).map (fun q => q.2.2)
      = List.replicate 7 (roundTwo (((1:ℕ):ℚ) / ((7:ℕ):ℚ) * 100)) := by rfl
  have hf : ⌊(((1:ℕ):ℚ) / ((7:ℕ):ℚ) * 100) * 100 + 1/2⌋ = 1429 := by
    rw [Int.floor_eq_iff]
    constructor
    · push_cast
      norm_num
    · push_cast
      norm_num
  have h2 : roundTwo (((1:ℕ):ℚ) / ((7:ℕ):ℚ) * 100) = 1429 / 100 := by
    rw [roundTwo, round_eq, hf]
    norm_num
  rw [h1, h2, List.sum_replicate, nsmul_eq_mul, abs_le]
  norm_num

/-- C8 amended: `top_crime_types` returns `min top_n D` rows (for `D`
distinct categories), sorted by descending count, each row carrying a
category present in the data with its exact frequency; each displayed
percentage is `count / sum(returned counts) * 100` rounded to two decimals,
and the percentages sum to 100 within `±1/200` per returned row (e.g.
`±0.035` for 7 rows) — not within `±0.01` in general. -/
theorem C8_category_ranking (df : List Record) (n : Nat)
    (hne : df ≠ []) (hn : 0 < n) :
    (top_crime_types df n).length
      = min n ((df.map (fun r => r.primary_type)).dedup.length) ∧
    List.Sorted cntDesc (top_crime_types df n) ∧
    (∀ p ∈ top_crime_types df n,
        (∃ r ∈ df, r.primary_type = p.1) ∧ p.2 = catCount df p.1 ∧ 0 < p.2) ∧
    (∀ q ∈ crime_stats df n,
        q.2.2 = roundTwo ((q.2.1 : ℚ)
          / ((((top_crime_types df n).map (fun p => p.2)).sum : ℕ) : ℚ) * 100)) ∧
    |((crime_stats df n).map (fun q => q.2.2)).sum - 100|
      ≤ ((crime_stats df n).length : ℚ) / 200 := by
  have hmem : ∀ p ∈ top_crime_types df n,
      (∃ r ∈ df, r.primary_type = p.1) ∧ p.2 = catCount df p.1 ∧ 0 < p.2 := by
    intro p hp
    rw [top_crime_types] at hp
    have hp2 : p ∈ value_counts df := (List.take_sublist n _).subset hp
    rw [value_counts, List.mem_insertionSort, List.mem_map] at hp2
    obtain ⟨c, hc, rfl⟩ := hp2
    rw [List.mem_dedup, List.mem_map] at hc
    obtain ⟨r, hr, rfl⟩ := hc
    refine ⟨⟨r, hr, rfl⟩, rfl, ?_⟩
    exact List.length_pos_of_mem (List.mem_filter.mpr ⟨hr, by simp⟩)
  have hlen : (top_crime_types df n).length
      = min n ((df.map (fun r => r.primary_type)).dedup.length) := by
    rw [top_crime_types, List.length_take, value_counts,
      (List.perm_insertionSort _ _).length_eq, List.length_map]
  have hrne : top_crime_types df n ≠ [] := by
    rw [← List.length_pos, hlen]
    refine lt_min hn ?_
    rw [List.length_pos]
    intro hdn
    rw [List.dedup_eq_nil, List.map_eq_nil_iff] at hdn
    exact hne hdn
  have hS : 0 < ((top_crime_types df n).map (fun p => p.2)).sum := by
    obtain ⟨p, hp⟩ := List.exists_mem_of_ne_nil _ hrne
    have hp3 := (hmem p hp).2.2
    have hle : p.2 ≤ ((top_crime_types df n).map (fun p => p.2)).sum :=
      List.single_le_sum (fun x _ => Nat.zero_le x) p.2
        (List.mem_map_of_mem (fun p => p.2) hp)
    omega
  have hmap : (crime_stats df n).map (fun q => q.2.2)
      = ((top_crime_types df n).map (fun p =>
          (p.2 : ℚ) / ((((top_crime_types df n).map (fun p => p.2)).sum : ℕ) : ℚ)
            * 100)).map roundTwo := by
    simp only [crime_stats, List.map_map]
    refine List.map_congr_left ?_
    intro p hp
    simp only [Function.comp_apply]
    rw [if_pos hS]
  have hstats : ∀ q ∈ crime_stats df n,
      q.2.2 = roundTwo ((q.2.1 : ℚ)
        / ((((top_crime_types df n).map (fun p => p.2)).sum : ℕ) : ℚ) * 100) := by
    intro q hq
    simp only [crime_stats, List.mem_map] at hq
    obtain ⟨p, hp, rfl⟩ := hq
    simp only
    rw [if_pos hS]
  refine ⟨hlen, ?_, hmem, hstats, ?_⟩
  · rw [top_crime_types]
    exact (List.sorted_insertionSort cntDesc _).sublist (List.take_sublist n _)
  · rw [hmap]
    have hb := sum_map_roundTwo_err ((top_crime_types df n).map (fun p =>
      (p.2 : ℚ) / ((((top_crime_types df n).map (fun p => p.2)).sum : ℕ) : ℚ) * 100))
    rw [sum_exact_pcts _ hS] at hb
    have hl : ((top_crime_types df n).map (fun p =>
        (p.2 : ℚ) / ((((top_crime_types df n).map (fun p => p.2)).sum : ℕ) : ℚ)
          * 100)).length = (crime_stats df n).length := by
      simp only [crime_stats, List.length_map]
    rw [hl] at hb
    exact hb

/-- C8 witness: on the seven-category example the seven percentages sum to
100 within `7/200 = 0.035`. -/
theorem C8_category_ranking_witness :
    |((crime_stats sevenCats 7).map (fun q => q.2.2)).sum - 100|
      ≤ ((crime_stats sevenCats 7).length : ℚ) / 200 :=
  (C8_category_ranking sevenCats 7 (by decide) (by decide)).2.2.2.2

end CrimeDash
